import Mathlib

/-!
Verification development for the sink-switch utility (src/sink-switch.py).

The script is embedded shallowly: the external world (pacmd inventory,
dbus notification service, the scratch file /tmp/sink_switch_storage) is
a record of inputs, every external command issued by the script is
recorded in a trace, and uncaught Python exceptions are modelled as an
error result carrying the world at the moment of the crash.
-/

/-- Python values that can flow into the notification-id position: the
script passes around None, ints (from dbus) and raw strings read from
the scratch file without converting them. -/
inductive NotifVal where
  | pyNone : NotifVal
  | pyInt (n : Nat) : NotifVal
  | pyStr (s : String) : NotifVal
deriving DecidableEq, Repr

/-- External commands the script issues, in order, during one run:
pacmd invocations, dbus Notify calls and writes of the scratch file. -/
inductive Cmd where
  | listSinksCmd : Cmd
  | listSinkInputsCmd : Cmd
  | setDefaultSink (idx : Nat) : Cmd
  | moveSinkInput (inputIdx : Nat) (sinkIdx : Nat) : Cmd
  | notifySend (replacesId : NotifVal) (message : String) : Cmd
  | writeStorage (content : String) : Cmd
deriving DecidableEq, Repr

/-- Uncaught Python exceptions that can terminate the script. -/
inductive PyErr where
  | indexError : PyErr
  | typeErrorMissingArg : PyErr
  | dbusError : PyErr
deriving DecidableEq, Repr

/-- Sink record; mirrors class Sink (src/sink-switch.py lines 12-24). -/
structure Sink where
  index : Nat
  name : String
  state : String
  selected : Bool
deriving DecidableEq, Repr

/-- Mirrors Sink.__init__: selected is true iff state is RUNNING or IDLE
(the Python membership test state in [RUNNING, IDLE]). -/
def mkSink (index : Nat) (name : String) (state : String) : Sink :=
  ⟨index, name, state, state == "RUNNING" || state == "IDLE"⟩

/-- Sink-input record; mirrors class Sink_Input (lines 30-39). -/
structure Sink_Input where
  index : Nat
  application_name : String
  sink : Nat
  state : String
deriving DecidableEq, Repr

/-- The external environment one run observes: the pacmd sink listing,
the pacmd sink-input listing, the dbus Notify outcome (none models the
call raising an exception) and the scratch-file content (none models a
missing file, i.e. FileNotFoundError on open). -/
structure Env where
  sinks : List Sink
  sinkInputs : List Sink_Input
  notifyResult : Option Nat
  storage : Option String
deriving DecidableEq, Repr

/-- Mutable state of one run: the fixed environment, the trace of
external commands issued so far, and the current scratch-file content. -/
structure World where
  env : Env
  trace : List Cmd
  storage : Option String
deriving DecidableEq, Repr

/-- Record one external command in the trace. -/
def emit (w : World) (c : Cmd) : World :=
  ⟨w.env, w.trace ++ [c], w.storage⟩

/-- Result of running a piece of the script: either a value together
with the updated world, or the world at the moment an uncaught Python
exception was raised (the process then exits with nonzero status). -/
abbrev PyResult (α : Type) := Except (World × PyErr) (α × World)

/-- World in which a run ended, whether normally or by an exception. -/
def finalWorld {α : Type} : PyResult α → World
  | .ok (_, w) => w
  | .error (w, _) => w

/-- The exception a run raised, if any; none means exit status 0. -/
def errOf {α : Type} : PyResult α → Option PyErr
  | .ok _ => none
  | .error (_, e) => some e

/-- Mirrors get_sinks (lines 45-55): one pacmd list-sinks call, parsed
into the environment's sink records. -/
def get_sinks (w : World) : List Sink × World :=
  (w.env.sinks, emit w Cmd.listSinksCmd)

/-- Mirrors get_sink_inputs (lines 58-69): one pacmd list-sink-inputs
call, parsed into the environment's sink-input records. -/
def get_sink_inputs (w : World) : List Sink_Input × World :=
  (w.env.sinkInputs, emit w Cmd.listSinkInputsCmd)

/-- Python truthiness of notification_id or 0 (line 164): None and the
empty string and the int 0 are falsy. -/
def pyOrZero : NotifVal → NotifVal
  | .pyNone => .pyInt 0
  | .pyInt n => .pyInt n
  | .pyStr s => if s.isEmpty then .pyInt 0 else .pyStr s

/-- Mirrors send_notification (lines 163-167): one dbus Notify call.
The environment decides its outcome; none models dbus raising, and the
exception is not caught anywhere in the script. -/
def send_notification (message : String) (notification_id : NotifVal) (w : World) :
    PyResult Nat :=
  let replacement_id := pyOrZero notification_id
  match w.env.notifyResult with
  | some newId => .ok (newId, emit w (Cmd.notifySend replacement_id message))
  | none => .error (w, PyErr.dbusError)

/-- Mirrors switch_to_sink (lines 149-160): pacmd set-default-sink,
then a fresh get_sink_inputs call, then one pacmd move-sink-input per
stream of that fresh listing, then optionally a notification. Returns
the new notification id (None when notify is false, matching the
Python function falling off its end). -/
def switch_to_sink (sink : Sink) (notify : Bool) (notification_id : NotifVal) (w : World) :
    PyResult (Option Nat) :=
  let w1 := emit w (Cmd.setDefaultSink sink.index)
  let p := get_sink_inputs w1
  let w3 := p.1.foldl (fun acc si => emit acc (Cmd.moveSinkInput si.index sink.index)) p.2
  if notify then
    match send_notification sink.name notification_id w3 with
    | .ok (newId, w4) => .ok (some newId, w4)
    | .error e => .error e
  else
    .ok (none, w3)

/-- Mirrors List.isPrefixOf-based scanning of Python str.find: true iff
pat occurs at the head of some suffix of hay, i.e. hay.find(pat) != -1. -/
def containsSub (pat : List Char) : List Char → Bool
  | [] => pat.isPrefixOf []
  | c :: rest => pat.isPrefixOf (c :: rest) || containsSub pat rest

/-- Python sink.name.find(device_name) != -1 (line 135): case-sensitive
unanchored substring test on the character sequences. -/
def strContains (hay : String) (pat : String) : Bool :=
  containsSub pat.data hay.data

/-- The selection performed by the loop of switch_to_sink_with_name
(lines 133-135): first sink in list order whose name contains the
needle. The hasattr guard of line 134 is always true, since Sink.__init__
always sets the name attribute. -/
def selectByName (sinks : List Sink) (device_name : String) : Option Sink :=
  sinks.find? fun s => strContains s.name device_name

/-- Conversion of the Optional int returned by switch_to_sink into the
value rebound to notification_id at line 136. -/
def NotifVal.ofOpt : Option Nat → NotifVal
  | none => .pyNone
  | some n => .pyInt n

/-- Mirrors switch_to_sink_with_name (lines 122-146): switch to the
first name match and return (True, new id); otherwise notify about the
miss when notify is set and return (False, id). -/
def switch_to_sink_with_name (sinks : List Sink) (notify : Bool) (device_name : String)
    (notification_id : NotifVal) (w : World) : PyResult (Bool × NotifVal) :=
  match selectByName sinks device_name with
  | some sink =>
    match switch_to_sink sink notify notification_id w with
    | .ok (r, w1) => .ok ((true, NotifVal.ofOpt r), w1)
    | .error e => .error e
  | none =>
    if notify then
      match send_notification ("No device with name " ++ device_name ++ " found")
          notification_id w with
      | .ok (newId, w1) => .ok ((false, NotifVal.pyInt newId), w1)
      | .error e => .error e
    else
      .ok ((false, notification_id), w)

/-- Python str.split on a comma (line 95): every comma separates, empty
pieces are kept, and the split of the empty string is one empty piece. -/
def splitCommaChars : List Char → List (List Char)
  | [] => [[]]
  | c :: rest =>
    if c = ',' then [] :: splitCommaChars rest
    else
      match splitCommaChars rest with
      | [] => [[c]]
      | h :: t => (c :: h) :: t

/-- String-level wrapper of the comma split. -/
def pySplitComma (s : String) : List String :=
  (splitCommaChars s.data).map fun cs => String.mk cs

/-- Mirrors the scratch-file read of lines 93-102: a missing file or a
line that does not split into exactly two comma-separated fields yields
the defaults (None, 0); otherwise the two raw string fields are used. -/
def loadState : Option String → Option String × NotifVal
  | none => (none, NotifVal.pyInt 0)
  | some content =>
    match pySplitComma content with
    | [a, b] => (some a, NotifVal.pyStr b)
    | _ => (none, NotifVal.pyInt 0)

/-- Index of the first list entry equal to c, counting from i; mirrors
the enumerate loop with break of lines 105-110. -/
def findIdxFrom (c : String) : List String → Nat → Option Nat
  | [], _ => none
  | v :: rest, i => if v = c then some i else findIdxFrom c rest (i + 1)

/-- The group-rotation choice of lines 104-112: if the stored match is
in the group, advance from its first occurrence cyclically, else take
the group head. Returns none only for the empty group, where Python
would raise IndexError on match_group[0]. -/
def selectNextInGroup (match_group : List String) (current_match : Option String) :
    Option String :=
  match current_match with
  | some c =>
    if match_group.contains c then
      match findIdxFrom c match_group 0 with
      | some i => match_group[(i + 1) % match_group.length]?
      | none => none
    else match_group[0]?
  | none => match_group[0]?

/-- Python str() of the Optional int written back at line 119. -/
def pyReprNV : NotifVal → String
  | .pyNone => "None"
  | .pyInt n => Nat.repr n
  | .pyStr s => s

/-- Mirrors switch_to_next_sink_from_group (lines 83-119): load the
scratch state, rotate inside the group, resolve by name against the
live inventory, and persist the new state only when a switch happened. -/
def switch_to_next_sink_from_group (sinks : List Sink) (match_group : List String)
    (notify : Bool) (w : World) : PyResult Unit :=
  let st := loadState w.storage
  match selectNextInGroup match_group st.1 with
  | none => .error (w, PyErr.indexError)
  | some next_value =>
    match switch_to_sink_with_name sinks notify next_value st.2 w with
    | .ok (r, w1) =>
      if r.1 then
        let line := next_value ++ "," ++ pyReprNV r.2
        .ok ((), ⟨w1.env, w1.trace ++ [Cmd.writeStorage line], some line⟩)
      else .ok ((), w1)
    | .error e => .error e

/-- The next-sink choice of lines 73-79: start from sinks[0] (none on
the empty list, where Python raises IndexError), then scan all indices;
every selected index i overwrites the candidate with sinks[0] when i is
last, else with sinks[i+1]. -/
def next_sink_choice (sinks : List Sink) : Option Sink :=
  match sinks with
  | [] => none
  | s0 :: rest =>
    let l := s0 :: rest
    some (l.enum.foldl
      (fun acc p =>
        if p.2.selected then
          if p.1 = l.length - 1 then s0 else l.getD (p.1 + 1) s0
        else acc)
      s0)

/-- Mirrors switch_to_next_sink (lines 72-80). After computing the next
sink, line 80 calls switch_to_sink without the required notification_id
argument, so Python raises TypeError there; on the empty list the
sinks[0] read of line 73 raises IndexError first. -/
def switch_to_next_sink (sinks : List Sink) (notify : Bool) (w : World) : PyResult Unit :=
  match next_sink_choice sinks with
  | none => .error (w, PyErr.indexError)
  | some _ => .error (w, PyErr.typeErrorMissingArg)

/-- Parsed CLI arguments (lines 176-185). -/
structure Args where
  list : Bool
  matchName : Option String
  matchNextGroup : Option (List String)
  notify : Bool
deriving DecidableEq, Repr

/-- Python truthiness of args.match: None and the empty string are falsy. -/
def strTruthy : Option String → Bool
  | some s => !s.isEmpty
  | none => false

/-- Mirrors main (lines 170-201). The branch for args.match calls
switch_to_sink_with_name without the required notification_id argument
(line 195), so Python raises TypeError in that branch. -/
def mainRun (env : Env) (args : Args) : PyResult Unit :=
  let w0 : World := ⟨env, [], env.storage⟩
  let p := get_sinks w0
  if args.list then
    let q := get_sink_inputs p.2
    .ok ((), q.2)
  else if strTruthy args.matchName then
    .error (p.2, PyErr.typeErrorMissingArg)
  else
    match args.matchNextGroup with
    | some g =>
      if g.isEmpty then switch_to_next_sink p.1 args.notify p.2
      else switch_to_next_sink_from_group p.1 g args.notify p.2
    | none => switch_to_next_sink p.1 args.notify p.2

/-- Abstract persisted group state as the spec describes it: a last
matched name and an integer notification handle. -/
structure GroupState where
  lastMatchedName : String
  lastNotificationHandle : Nat
deriving DecidableEq, Repr

/-- The scratch-file line written for a state with an integer handle,
mirroring the formatted write of line 119. -/
def saveGroupState (s : GroupState) : String :=
  s.lastMatchedName ++ "," ++ Nat.repr s.lastNotificationHandle

/-- Positions (in list order) of the sinks whose selected flag is true. -/
def selectedIndices (sinks : List Sink) : List Nat :=
  (sinks.enum.filter fun p => p.2.selected).map Prod.fst

theorem moveFold_eq (inputs : List Sink_Input) (sinkIdx : Nat) :
    ∀ w : World,
      inputs.foldl
          (fun acc si =>
            (⟨acc.env, acc.trace ++ [Cmd.moveSinkInput si.index sinkIdx], acc.storage⟩ : World)) w
        = ⟨w.env, w.trace ++ inputs.map (fun si => Cmd.moveSinkInput si.index sinkIdx),
            w.storage⟩ := by
  induction inputs with
  | nil => intro w; simp
  | cons a t ih =>
    intro w
    rw [List.foldl_cons, ih]
    simp

theorem switch_to_sink_eq (sink : Sink) (notify : Bool) (nid : NotifVal) (w : World) :
    switch_to_sink sink notify nid w =
      (let wm : World := ⟨w.env, w.trace ++ Cmd.setDefaultSink sink.index ::
          Cmd.listSinkInputsCmd ::
          w.env.sinkInputs.map (fun si => Cmd.moveSinkInput si.index sink.index), w.storage⟩
      if notify then
        match w.env.notifyResult with
        | some newId => .ok (some newId, emit wm (Cmd.notifySend (pyOrZero nid) sink.name))
        | none => .error (wm, PyErr.dbusError)
      else .ok (none, wm)) := by
  cases notify <;> cases hn : w.env.notifyResult <;>
    simp [switch_to_sink, get_sink_inputs, send_notification, emit, moveFold_eq, hn]

/-- C8: activating a sink always issues set-default-sink with the target
index first, then re-fetches the stream inventory with a fresh pacmd
call (visible in the trace after the set-default command, so streams
created after the selection snapshot are included), and then issues one
move-stream command per stream of that fresh listing with the target
index; anything after that is at most a notification. -/
theorem switch_to_sink_two_step (sink : Sink) (notify : Bool) (nid : NotifVal) (w : World) :
    ∃ tail,
      (finalWorld (switch_to_sink sink notify nid w)).trace
        = w.trace ++ Cmd.setDefaultSink sink.index :: Cmd.listSinkInputsCmd ::
            ((w.env.sinkInputs.map fun si => Cmd.moveSinkInput si.index sink.index) ++ tail)
      ∧ ∀ c ∈ tail, ∃ rid msg, c = Cmd.notifySend rid msg := by
  rw [switch_to_sink_eq]
  cases notify with
  | false =>
    refine ⟨[], by simp [finalWorld], by simp⟩
  | true =>
    cases hn : w.env.notifyResult with
    | none => refine ⟨[], by simp [finalWorld], by simp⟩
    | some k =>
      refine ⟨[Cmd.notifySend (pyOrZero nid) sink.name], ?_, ?_⟩
      · simp [finalWorld, emit]
      · intro c hc
        simp at hc
        exact ⟨pyOrZero nid, sink.name, hc⟩

/-- C9 (amended): when the notification service raises, the run has
already issued the set-default-sink and all move-stream commands (they
remain in the trace), but the exception is not caught anywhere, so the
run terminates abnormally instead of silently ignoring the failure. -/
theorem notify_failure_propagates (sink : Sink) (nid : NotifVal) (w : World)
    (h : w.env.notifyResult = none) :
    switch_to_sink sink true nid w =
      .error (⟨w.env, w.trace ++ Cmd.setDefaultSink sink.index :: Cmd.listSinkInputsCmd ::
        (w.env.sinkInputs.map fun si => Cmd.moveSinkInput si.index sink.index), w.storage⟩,
        PyErr.dbusError) := by
  rw [switch_to_sink_eq]
  simp [h]

/-- Concrete world whose notification service raises. -/
def wFail : World :=
  ⟨⟨[mkSink 0 ("Speakers") ("RUNNING")], [⟨21, "Music", 0, "RUNNING"⟩], none, none⟩, [], none⟩

/-- C9 counterexample: an invocation with notify set where the
notification service raises; the default-sink change and the stream
move were performed, yet the program terminates abnormally with an
uncaught dbus exception, refuting that the failure is silently ignored. -/
theorem notify_failure_cex :
    errOf (switch_to_sink (mkSink 0 ("Speakers") ("RUNNING")) true NotifVal.pyNone wFail)
        = some PyErr.dbusError
      ∧ Cmd.setDefaultSink 0 ∈
          (finalWorld (switch_to_sink (mkSink 0 ("Speakers") ("RUNNING")) true
            NotifVal.pyNone wFail)).trace
      ∧ Cmd.moveSinkInput 21 0 ∈
          (finalWorld (switch_to_sink (mkSink 0 ("Speakers") ("RUNNING")) true
            NotifVal.pyNone wFail)).trace := by
  decide

/-- C9 witness: the amended statement evaluated at a concrete world. -/
theorem notify_failure_propagates_witness :
    switch_to_sink (mkSink 0 ("Speakers") ("RUNNING")) true NotifVal.pyNone wFail =
      .error (⟨wFail.env, [Cmd.setDefaultSink 0, Cmd.listSinkInputsCmd,
        Cmd.moveSinkInput 21 0], none⟩, PyErr.dbusError) := by
  have h := notify_failure_propagates (mkSink 0 ("Speakers") ("RUNNING")) NotifVal.pyNone
    wFail rfl
  simpa using h

/-- C10: on the empty sink list the next-sink mode fails at once: the
unconditional sinks[0] read of line 73 raises IndexError, so the
no-argument mode needs a non-empty inventory. -/
theorem next_sink_empty_fails :
    next_sink_choice [] = none
      ∧ ∀ (notify : Bool) (w : World),
          switch_to_next_sink [] notify w = .error (w, PyErr.indexError) :=
  ⟨rfl, fun _ _ => rfl⟩

/-- C3: group rotation depends only on the group and the stored last
match: a stored B yields C, a stored C wraps to A, and a stored Z that
is not in the group falls back to the first entry A. -/
theorem group_rotation_concrete :
    selectNextInGroup ["A", "B", "C"] ((loadState (some ("B,7"))).1) = some ("C")
      ∧ selectNextInGroup ["A", "B", "C"] ((loadState (some ("C,7"))).1) = some ("A")
      ∧ selectNextInGroup ["A", "B", "C"] ((loadState (some ("Z,7"))).1) = some ("A") := by
  decide

/-- Environment of the no-argument scenario: Speakers(0) RUNNING and
Headphones(1) IDLE, one live stream, a working notification service,
no scratch file. -/
def envScenario : Env :=
  ⟨[mkSink 0 ("Speakers") ("RUNNING"), mkSink 1 ("Headphones") ("IDLE")],
    [⟨21, "Music", 0, "RUNNING"⟩], some 42, none⟩

/-- C1 counterexample: invoked with no CLI arguments on that inventory,
the run raises TypeError (line 80 calls switch_to_sink without the
required notification_id argument) and never issues set-default-sink
for index 1, so it neither switches to Headphones nor moves streams. -/
theorem no_args_scenario_cex :
    errOf (mainRun envScenario ⟨false, none, none, false⟩) = some PyErr.typeErrorMissingArg
      ∧ Cmd.setDefaultSink 1 ∉
          (finalWorld (mainRun envScenario ⟨false, none, none, false⟩)).trace := by
  decide

/-- C1 (amended): on that inventory both sinks count as selected
(RUNNING and IDLE both set the flag), the scan's last-selected-wins rule
picks Headphones as current and wraps to Speakers (index 0, not 1); the
run then raises TypeError at line 80 before issuing any switch command,
its trace holding only the pacmd list-sinks call. -/
theorem no_args_scenario :
    next_sink_choice envScenario.sinks = some (mkSink 0 ("Speakers") ("RUNNING"))
      ∧ mainRun envScenario ⟨false, none, none, false⟩
          = .error (⟨envScenario, [Cmd.listSinksCmd], none⟩, PyErr.typeErrorMissingArg) :=
  ⟨by decide, rfl⟩

/-- C6: with a match argument USB and notify set but no sink name
containing USB, the run does not notify and does not exit normally:
main's call of line 195 omits the required notification_id argument, so
Python raises TypeError right after listing sinks, leaving a trace with
no notification and no switch command. -/
theorem match_usb_crashes :
    errOf (mainRun envScenario ⟨false, some ("USB"), none, true⟩)
        = some PyErr.typeErrorMissingArg
      ∧ (finalWorld (mainRun envScenario ⟨false, some ("USB"), none, true⟩)).trace
          = [Cmd.listSinksCmd] := by
  decide

theorem foldl_if_last {α β : Type} (p : α → Bool) (f : α → β) :
    ∀ (l : List α) (init : β),
      l.foldl (fun acc x => if p x then f x else acc) init
        = (((l.filter p).getLast?).map f).getD init := by
  intro l
  induction l with
  | nil => intro init; rfl
  | cons a t ih =>
    intro init
    rw [List.foldl_cons, ih]
    cases h : p a with
    | false => rw [List.filter_cons_of_neg (by simp [h])]; simp [h]
    | true =>
      rw [List.filter_cons_of_pos h]
      cases hft : t.filter p with
      | nil => simp [hft, h]
      | cons b bt =>
        rw [List.getLast?_cons_cons]
        cases hgl : (b :: bt).getLast? with
        | none => exact absurd (List.getLast?_eq_none_iff.mp hgl) (by simp)
        | some y => simp [hgl, h]

theorem next_sink_choice_eq (s0 : Sink) (rest : List Sink) :
    next_sink_choice (s0 :: rest)
      = some (((((s0 :: rest).enum.filter fun q => q.2.selected).getLast?).map
          (fun q => if q.1 = (s0 :: rest).length - 1 then s0
            else (s0 :: rest).getD (q.1 + 1) s0)).getD s0) := by
  show some (((s0 :: rest).enum).foldl
      (fun acc q => if q.2.selected then
        (if q.1 = (s0 :: rest).length - 1 then s0 else (s0 :: rest).getD (q.1 + 1) s0)
        else acc) s0) = _
  rw [foldl_if_last]

theorem selected_last_case (sinks : List Sink) (pre : List Nat) (j : Nat)
    (hsel : selectedIndices sinks = pre ++ [j]) :
    next_sink_choice sinks = sinks.get? ((j + 1) % sinks.length) := by
  cases sinks with
  | nil => simp [selectedIndices] at hsel
  | cons s0 rest =>
    rw [next_sink_choice_eq]
    have hmap : (((s0 :: rest).enum.filter fun q => q.2.selected).map Prod.fst).getLast?
        = some j := by
      unfold selectedIndices at hsel
      rw [hsel, List.getLast?_concat]
    rw [List.getLast?_map] at hmap
    obtain ⟨q, hq, hq1⟩ := Option.map_eq_some'.mp hmap
    have hqmem := List.mem_of_getLast?_eq_some hq
    rw [List.mem_filter] at hqmem
    obtain ⟨hqenum, hqsel⟩ := hqmem
    have hget : (s0 :: rest)[q.1]? = some q.2 := List.mem_enum_iff_getElem?.mp hqenum
    have hlt : q.1 < (s0 :: rest).length := by
      obtain ⟨hh, -⟩ := List.getElem?_eq_some_iff.mp hget
      exact hh
    subst hq1
    rw [hq]
    by_cases hj : q.1 = (s0 :: rest).length - 1
    · have hmod : (q.1 + 1) % (s0 :: rest).length = 0 := by
        rw [hj]
        have h1 : (1 : Nat) ≤ (s0 :: rest).length := by simp
        rw [Nat.sub_add_cancel h1, Nat.mod_self]
      rw [hmod]
      simp [hj]
    · have hlt1 : q.1 + 1 < (s0 :: rest).length := by omega
      have hmod : (q.1 + 1) % (s0 :: rest).length = q.1 + 1 := Nat.mod_eq_of_lt hlt1
      rw [hmod]
      have hsome : (s0 :: rest)[q.1 + 1]? = some ((s0 :: rest).get ⟨q.1 + 1, hlt1⟩) :=
        List.getElem?_eq_some_iff.mpr ⟨hlt1, rfl⟩
      have hj2 : ¬ q.1 = rest.length := by simpa using hj
      have hlt2 : q.1 < rest.length := by simpa using hlt1
      rw [List.get?_eq_getElem?, hsome]
      simp [hj2, List.getD_eq_getElem?_getD, List.getElem?_eq_getElem hlt2]

theorem no_selected_case (sinks : List Sink) (h : sinks ≠ []) (hsel : selectedIndices sinks = []) :
    next_sink_choice sinks = sinks.get? 0 := by
  cases sinks with
  | nil => exact absurd rfl h
  | cons s0 rest =>
    rw [next_sink_choice_eq]
    have hF : ((s0 :: rest).enum.filter fun q => q.2.selected) = [] := by
      unfold selectedIndices at hsel
      exact List.map_eq_nil_iff.mp hsel
    rw [hF]
    rfl

/-- C2: for a non-empty sink list, the next-sink scan of
switch_to_next_sink picks: the sink at position (i+1) mod n when
exactly one position i is selected, the first sink when none is
selected, and, with several selected positions, the successor (mod n)
of the last selected position in list order, since later loop
iterations overwrite earlier candidates. -/
theorem next_sink_selection_spec (sinks : List Sink) (h : sinks ≠ []) :
    (∀ i, selectedIndices sinks = [i] →
        next_sink_choice sinks = sinks.get? ((i + 1) % sinks.length))
      ∧ (selectedIndices sinks = [] → next_sink_choice sinks = sinks.get? 0)
      ∧ ∀ pre j, selectedIndices sinks = pre ++ [j] →
          next_sink_choice sinks = sinks.get? ((j + 1) % sinks.length) :=
  ⟨fun i hi => selected_last_case sinks [] i (by simpa using hi),
    no_selected_case sinks h,
    fun pre j hj => selected_last_case sinks pre j hj⟩

/-- C2 witness: on Speakers RUNNING, Headphones IDLE, HDMI SUSPENDED the
selected positions are 0 and 1; the last one (1) determines the choice,
which is position 2 mod 3, the HDMI sink. -/
theorem next_sink_selection_spec_witness :
    next_sink_choice [mkSink 0 ("Speakers") ("RUNNING"), mkSink 1 ("Headphones") ("IDLE"),
        mkSink 2 ("HDMI") ("SUSPENDED")]
      = some (mkSink 2 ("HDMI") ("SUSPENDED")) := by
  have h := (next_sink_selection_spec
    [mkSink 0 ("Speakers") ("RUNNING"), mkSink 1 ("Headphones") ("IDLE"),
      mkSink 2 ("HDMI") ("SUSPENDED")] (by decide)).2.2 [0] 1 (by decide)
  simpa using h

theorem containsSub_iff (pat : List Char) :
    ∀ hay : List Char, containsSub pat hay = true ↔ List.IsInfix pat hay := by
  intro hay
  induction hay with
  | nil =>
    simp [containsSub, List.isPrefixOf_iff_prefix]
  | cons c rest ih =>
    simp [containsSub, List.isPrefixOf_iff_prefix, ih, List.infix_cons_iff]

theorem find?_first {α : Type} (p : α → Bool) :
    ∀ (l : List α) (i : Nat) (a : α), l.get? i = some a → p a = true →
      (∀ j b, j < i → l.get? j = some b → p b = false) → l.find? p = some a := by
  intro l
  induction l with
  | nil => intro i a ha; simp [List.get?] at ha
  | cons x t ih =>
    intro i a ha hpa hprev
    cases i with
    | zero =>
      have hx : x = a := by simpa using ha
      subst hx
      exact List.find?_cons_of_pos t hpa
    | succ n =>
      have hx : p x = false := hprev 0 x (Nat.succ_pos n) rfl
      rw [List.find?_cons_of_neg t (by simp [hx])]
      exact ih n a (by simpa using ha) hpa
        (fun j b hj hb => hprev (j + 1) b (Nat.succ_lt_succ hj) hb)

/-- C5: match-by-name is case-sensitive unanchored substring search in
list order: the scan reports no match exactly when no sink name has the
needle as an infix of its character sequence; it returns the sink at
position i whenever that sink's name contains the needle and no earlier
position does; a miss makes switch_to_sink_with_name return a false
switched flag without side effects (notify off), and a hit makes it
activate exactly the selected sink. -/
theorem match_by_name_spec (sinks : List Sink) (needle : String) :
    (selectByName sinks needle = none ↔
        ∀ s ∈ sinks, ¬ List.IsInfix needle.data s.name.data)
      ∧ (∀ i a, sinks.get? i = some a → List.IsInfix needle.data a.name.data →
          (∀ j b, j < i → sinks.get? j = some b → ¬ List.IsInfix needle.data b.name.data) →
          selectByName sinks needle = some a)
      ∧ (selectByName sinks needle = none → ∀ (w : World) (nid : NotifVal),
          switch_to_sink_with_name sinks false needle nid w = .ok ((false, nid), w))
      ∧ (∀ a, selectByName sinks needle = some a → ∀ (w : World) (nid : NotifVal),
          switch_to_sink_with_name sinks false needle nid w
            = .ok ((true, NotifVal.pyNone),
                ⟨w.env, w.trace ++ Cmd.setDefaultSink a.index :: Cmd.listSinkInputsCmd ::
                  (w.env.sinkInputs.map fun si => Cmd.moveSinkInput si.index a.index),
                  w.storage⟩)) := by
  refine ⟨?_, ?_, ?_, ?_⟩
  · rw [selectByName, List.find?_eq_none]
    constructor
    · intro hnone s hs hinf
      exact hnone s hs (by rw [strContains, containsSub_iff]; exact hinf)
    · intro hall s hs hc
      rw [strContains, containsSub_iff] at hc
      exact hall s hs hc
  · intro i a ha hinf hprev
    refine find?_first _ sinks i a ha ?_ ?_
    · rw [strContains, containsSub_iff]
      exact hinf
    · intro j b hj hb
      have := hprev j b hj hb
      rw [← containsSub_iff needle.data b.name.data] at this
      simpa using this
  · intro hnone w nid
    rw [switch_to_sink_with_name, hnone]
    rfl
  · intro a hsome w nid
    rw [switch_to_sink_with_name, hsome]
    show (match switch_to_sink a false nid w with
      | Except.ok (r, w1) => Except.ok ((true, NotifVal.ofOpt r), w1)
      | Except.error e => Except.error e) = _
    rw [switch_to_sink_eq]
    rfl

/-- C5 witness: on a two-sink inventory where only the second name
contains the needle, the first-match scan returns that second sink. -/
theorem match_by_name_spec_witness :
    selectByName [mkSink 0 ("usb one") ("RUNNING"), mkSink 1 ("Headphones") ("IDLE")]
        ("Head")
      = some (mkSink 1 ("Headphones") ("IDLE")) := by
  refine (match_by_name_spec
    [mkSink 0 ("usb one") ("RUNNING"), mkSink 1 ("Headphones") ("IDLE")] ("Head")).2.1
    1 (mkSink 1 ("Headphones") ("IDLE")) (by decide) (by decide) ?_
  intro j b hj hb
  have hj0 : j = 0 := Nat.lt_one_iff.mp hj
  subst hj0
  have hb0 : b = mkSink 0 ("usb one") ("RUNNING") := by
    have := hb
    simp at this
    exact this.symm
  subst hb0
  decide

/-- C7: in group-rotation mode, when the chosen group entry matches no
sink name in the live inventory, the scratch file keeps its previous
content and the run performs no storage write at all, whether or not
the miss is notified and whether or not the notification itself fails;
the file is rewritten only after a successful switch. -/
theorem group_miss_preserves_state (sinks : List Sink) (group : List String) (notify : Bool)
    (w : World) (nv : String)
    (hsel : selectNextInGroup group (loadState w.storage).1 = some nv)
    (hmiss : selectByName sinks nv = none) :
    (finalWorld (switch_to_next_sink_from_group sinks group notify w)).storage = w.storage
      ∧ ∃ ext, (finalWorld (switch_to_next_sink_from_group sinks group notify w)).trace
          = w.trace ++ ext ∧ ∀ content, Cmd.writeStorage content ∉ ext := by
  cases notify with
  | false =>
    have hrun : switch_to_next_sink_from_group sinks group false w = .ok ((), w) := by
      rw [switch_to_next_sink_from_group]
      simp only [hsel]
      rw [switch_to_sink_with_name, hmiss]
      rfl
    rw [hrun]
    exact ⟨rfl, [], by simp [finalWorld], by simp⟩
  | true =>
    cases hn : w.env.notifyResult with
    | some k =>
      have hrun : switch_to_next_sink_from_group sinks group true w
          = .ok ((), emit w (Cmd.notifySend (pyOrZero (loadState w.storage).2)
              ("No device with name " ++ nv ++ " found"))) := by
        rw [switch_to_next_sink_from_group]
        simp only [hsel]
        rw [switch_to_sink_with_name, hmiss]
        simp [send_notification, hn]
      rw [hrun]
      refine ⟨rfl, [Cmd.notifySend (pyOrZero (loadState w.storage).2)
        ("No device with name " ++ nv ++ " found")], by simp [finalWorld, emit], ?_⟩
      intro content
      simp
    | none =>
      have hrun : switch_to_next_sink_from_group sinks group true w
          = .error (w, PyErr.dbusError) := by
        rw [switch_to_next_sink_from_group]
        simp only [hsel]
        rw [switch_to_sink_with_name, hmiss]
        simp [send_notification, hn]
      rw [hrun]
      exact ⟨rfl, [], by simp [finalWorld], by simp⟩

/-- World for the C7 witness: one Speakers sink, no scratch file, group
entry USB matching nothing. -/
def wMiss : World :=
  ⟨⟨[mkSink 0 ("Speakers") ("RUNNING")], [], some 1, none⟩, [], none⟩

/-- C7 witness: the preservation statement evaluated on a concrete
missed group rotation. -/
theorem group_miss_preserves_state_witness :
    (finalWorld (switch_to_next_sink_from_group [mkSink 0 ("Speakers") ("RUNNING")]
        ["USB"] false wMiss)).storage = wMiss.storage
      ∧ ∃ ext, (finalWorld (switch_to_next_sink_from_group [mkSink 0 ("Speakers") ("RUNNING")]
          ["USB"] false wMiss)).trace = wMiss.trace ++ ext
          ∧ ∀ content, Cmd.writeStorage content ∉ ext :=
  group_miss_preserves_state [mkSink 0 ("Speakers") ("RUNNING")] ["USB"] false wMiss
    ("USB") (by decide) (by decide)

theorem splitCommaChars_append (a b : List Char) (h : ',' ∉ a) :
    splitCommaChars (a ++ ',' :: b) = a :: splitCommaChars b := by
  induction a with
  | nil => simp [splitCommaChars]
  | cons c a' ih =>
    have hc : ¬ c = ',' := fun hcc => h (hcc ▸ List.mem_cons_self c a')
    have h' : ',' ∉ a' := fun hm => h (List.mem_cons_of_mem c hm)
    rw [List.cons_append, splitCommaChars, if_neg hc, ih h']

theorem splitCommaChars_no_comma (b : List Char) (h : ',' ∉ b) :
    splitCommaChars b = [b] := by
  induction b with
  | nil => rfl
  | cons c b' ih =>
    have hc : ¬ c = ',' := fun hcc => h (hcc ▸ List.mem_cons_self c b')
    have h' : ',' ∉ b' := fun hm => h (List.mem_cons_of_mem c hm)
    rw [splitCommaChars, if_neg hc, ih h']

theorem digitChar_ne_comma (m : Nat) : Nat.digitChar m ≠ ',' := by
  rcases Nat.lt_or_ge m 16 with h | h
  · interval_cases m <;> decide
  · unfold Nat.digitChar
    rw [if_neg (show ¬ m = 0 by omega)]
    rw [if_neg (show ¬ m = 1 by omega)]
    rw [if_neg (show ¬ m = 2 by omega)]
    rw [if_neg (show ¬ m = 3 by omega)]
    rw [if_neg (show ¬ m = 4 by omega)]
    rw [if_neg (show ¬ m = 5 by omega)]
    rw [if_neg (show ¬ m = 6 by omega)]
    rw [if_neg (show ¬ m = 7 by omega)]
    rw [if_neg (show ¬ m = 8 by omega)]
    rw [if_neg (show ¬ m = 9 by omega)]
    rw [if_neg (show ¬ m = 10 by omega)]
    rw [if_neg (show ¬ m = 11 by omega)]
    rw [if_neg (show ¬ m = 12 by omega)]
    rw [if_neg (show ¬ m = 13 by omega)]
    rw [if_neg (show ¬ m = 14 by omega)]
    rw [if_neg (show ¬ m = 15 by omega)]
    decide

theorem toDigitsCore_mem (b : Nat) :
    ∀ (f n : Nat) (acc : List Char) (c : Char), c ∈ Nat.toDigitsCore b f n acc →
      c ∈ acc ∨ ∃ m, c = Nat.digitChar m := by
  intro f
  induction f with
  | zero => intro n acc c hc; exact Or.inl hc
  | succ f ih =>
    intro n acc c hc
    unfold Nat.toDigitsCore at hc
    dsimp only at hc
    split at hc
    · rcases List.mem_cons.mp hc with h1 | h2
      · exact Or.inr ⟨n % b, h1⟩
      · exact Or.inl h2
    · rcases ih (n / b) (Nat.digitChar (n % b) :: acc) c hc with h1 | h2
      · rcases List.mem_cons.mp h1 with h3 | h4
        · exact Or.inr ⟨n % b, h3⟩
        · exact Or.inl h4
      · exact Or.inr h2

theorem comma_notin_repr (n : Nat) : ',' ∉ (Nat.repr n).data := by
  intro hmem
  have hmem2 : (',' : Char) ∈ Nat.toDigitsCore 10 (n + 1) n [] := hmem
  rcases toDigitsCore_mem 10 (n + 1) n [] ',' hmem2 with h1 | ⟨m, hm⟩
  · simp at h1
  · exact digitChar_ne_comma m hm.symm

/-- C4 counterexample: the well-formed state with name a,b and handle 5
does not survive the round trip: its saved line splits into three
fields, so the load falls back to the default state. -/
theorem group_state_roundtrip_cex :
    loadState (some (saveGroupState ⟨"a,b", 5⟩))
      ≠ (some ("a,b"), NotifVal.pyStr (Nat.repr 5)) := by
  decide

/-- C4 (amended): save-then-load is the identity exactly as far as the
comma-joined encoding allows: for every GroupState whose last matched
name contains no comma, loading the saved line returns the saved name
and the saved handle (the handle coming back as its decimal string,
which is how the script keeps it). A comma in the name breaks the
two-field format and the load falls back to the defaults. -/
theorem group_state_roundtrip (s : GroupState) (h : ',' ∉ s.lastMatchedName.data) :
    loadState (some (saveGroupState s))
      = (some s.lastMatchedName, NotifVal.pyStr (Nat.repr s.lastNotificationHandle)) := by
  have hd : (saveGroupState s).data
      = s.lastMatchedName.data ++ ',' :: (Nat.repr s.lastNotificationHandle).data := by
    rw [saveGroupState, String.data_append, String.data_append]
    have h1 : ("," : String).data = [','] := rfl
    rw [h1, List.append_assoc]
    rfl
  rw [loadState, pySplitComma, hd, splitCommaChars_append _ _ h,
    splitCommaChars_no_comma _ (comma_notin_repr s.lastNotificationHandle)]
  rfl

/-- C4 witness: a concrete comma-free state round-trips. -/
theorem group_state_roundtrip_witness :
    loadState (some (saveGroupState ⟨"DAC", 7⟩))
      = (some ("DAC"), NotifVal.pyStr (Nat.repr 7)) :=
  group_state_roundtrip ⟨"DAC", 7⟩ (by decide)
